import Mathlib

/-!
Verification of the content-loading and rendering pipeline of the
carlosma7-cv portfolio site.

Shallow embedding of:
  * `src/components/Home/Section.js`   (Item, SkillItem, TimedItem, NotTimedItem, Section)
  * `src/components/Home/Education.js` (four content loaders and the home store)
  * `src/components/Project/List.js`   (projects loader)
  * `src/components/AboutMe/MyMap.js`  (locations loader and map markers)

JavaScript records are mapped to a structure of optional JSON values;
JS truthiness (`props.x && <El/>`) is modelled by `truthy`; webpack's
`require(`../../assets/<dir>/${name}`)` is modelled by `resolveAsset`
over the list of filenames bundled in the directory, with the JS
string interpolation of `undefined` made explicit.
-/

/-- A JSON scalar value as it flows through the pipeline: a string, a
number, or (after load-time enrichment) a resolved bundled asset. -/
inductive JVal where
  | str : String → JVal
  | num : Rat → JVal
  | asset : String → JVal
deriving DecidableEq

/-- One content record: the optional named fields recognized anywhere in the
pipeline.  `none` is JS `undefined` (field absent).  `position` is the
`{lat, lng}` object built by the locations loader in `MyMap.js`. -/
structure ContentRecord where
  title : Option JVal
  institution : Option JVal
  item : Option JVal
  experience : Option JVal
  description : Option JVal
  link : Option JVal
  location : Option JVal
  dates : Option JVal
  logo : Option JVal
  icon : Option JVal
  image : Option JVal
  skill : Option JVal
  progress : Option JVal
  project : Option JVal
  city : Option JVal
  date : Option JVal
  lat : Option JVal
  lng : Option JVal
  position : Option (Option JVal × Option JVal)
deriving DecidableEq

/-- The record with every field absent. -/
def emptyRecord : ContentRecord :=
  ⟨none, none, none, none, none, none, none, none, none, none,
   none, none, none, none, none, none, none, none, none⟩

/-- JS truthiness of a defined JSON value: the empty string and 0 are falsy. -/
def truthyV : JVal → Bool
  | .str s => !(s == "")
  | .num q => !(q == 0)
  | .asset _ => true

/-- JS truthiness of a possibly-undefined value (`undefined` is falsy). -/
def truthy : Option JVal → Bool
  | none => false
  | some v => truthyV v

/-- A rendered DOM element produced by the leaf renderers of `Section.js`.
`skillLabel`/`progressBar` carry possibly-undefined content because
`SkillItem` emits them unconditionally. -/
inductive Element where
  | image : JVal → Element
  | itemText : JVal → Element
  | experienceText : JVal → Element
  | linkChip : JVal → Element
  | locationText : JVal → Element
  | skillLabel : Option JVal → Element
  | progressBar : Option JVal → Element
deriving DecidableEq

/-- `{props.f && <El .../>}`: the element is emitted iff the value is truthy. -/
def condE (v : Option JVal) (mk : JVal → Element) : List Element :=
  match v with
  | some x => if truthyV x then [mk x] else []
  | none => []

/-- `Item` from `Section.js` lines 41-69: conditionally renders logo image,
item text, experience text, link chip and location text. -/
def renderItem (r : ContentRecord) : List Element :=
  condE r.logo .image ++ condE r.item .itemText ++
  condE r.experience .experienceText ++ condE r.link .linkChip ++
  condE r.location .locationText

/-- `SkillItem` from `Section.js` lines 71-78: unconditionally renders the
skill text and a progress bar with `now={props.progress}`. -/
def renderSkillItem (r : ContentRecord) : List Element :=
  [.skillLabel r.skill, .progressBar r.progress]

/-- One `TimelineItem` of `TimedItem`: an optional leading dates label
(`{item.dates && <TimelineOppositeContent>…}`), a connector flag
(`{index < props.content.length - 1 && <TimelineConnector/>}`) and the
`Item` body. -/
structure TimelineEntry where
  datesLabel : Option JVal
  hasConnector : Bool
  itemBody : List Element
deriving DecidableEq

/-- Builds the timeline entry for record `r` at index `i` of a collection of
length `n`, as in `TimedItem`'s map callback. -/
def mkEntry (n i : Nat) (r : ContentRecord) : TimelineEntry :=
  { datesLabel := match r.dates with
      | some v => if truthyV v then some v else none
      | none => none
    hasConnector := decide (i < n - 1)
    itemBody := renderItem r }

/-- `props.content.map((item, index) => <TimelineItem …>)`: the index-carrying
traversal of the collection. -/
def timelineEntriesAux (n : Nat) : Nat → List ContentRecord → List TimelineEntry
  | _, [] => []
  | i, r :: rs => mkEntry n i r :: timelineEntriesAux n (i + 1) rs

/-- The list of timeline entries `TimedItem` renders for a collection. -/
def timelineEntries (xs : List ContentRecord) : List TimelineEntry :=
  timelineEntriesAux xs.length 0 xs

/-- The `content` prop as received by the renderers: either a JSON array of
records or some non-array value (the defensive `Array.isArray` case). -/
inductive JContent where
  | arr : List ContentRecord → JContent
  | nonArr : JContent
deriving DecidableEq

/-- `TimedItem` from `Section.js` lines 80-107: renders a `Timeline` of
entries when `content` is an array, and nothing at all otherwise
(`none` = no `Timeline` wrapper in the DOM). -/
def renderTimedItem (c : JContent) : Option (List TimelineEntry) :=
  match c with
  | .arr xs => some (timelineEntries xs)
  | .nonArr => none

/-- `NotTimedItem` from `Section.js` lines 109-116: maps every record to a
`SkillItem` when `content` is an array, and renders nothing otherwise. -/
def renderNotTimedItem (c : JContent) : Option (List (List Element)) :=
  match c with
  | .arr xs => some (xs.map renderSkillItem)
  | .nonArr => none

/-- The body of a rendered `Section`: one of the two strategies. -/
inductive SectionBody where
  | timed : Option (List TimelineEntry) → SectionBody
  | flat : Option (List (List Element)) → SectionBody
deriving DecidableEq

/-- A rendered `Section`: the section-name label plus the strategy body. -/
structure RenderedSection where
  label : String
  body : SectionBody
deriving DecidableEq

/-- `Section` from `Section.js` lines 137-152: always renders the section
name, then dispatches on `props.sectionName !== "Skills"` between
`TimedItem` and `NotTimedItem`. -/
def renderSection (sectionName : String) (content : JContent) : RenderedSection :=
  { label := sectionName
    body := if sectionName ≠ "Skills" then .timed (renderTimedItem content)
            else .flat (renderNotTimedItem content) }

/-- Whether a section body used the flat (progress-list) strategy. -/
def SectionBody.isFlat : SectionBody → Bool
  | .flat _ => true
  | .timed _ => false

/-- Number of item elements (timeline items or skill rows) in a section body. -/
def SectionBody.itemCount : SectionBody → Nat
  | .timed (some es) => es.length
  | .timed none => 0
  | .flat (some rs) => rs.length
  | .flat none => 0

/-! ## Content loaders -/

/-- JS template-literal coercion of a possibly-undefined value, as in
``require(`../../assets/logos/${imageName}`)``: `undefined` interpolates
to the string `"undefined"`. -/
def jsToString : Option JVal → String
  | none => "undefined"
  | some (.str s) => s
  | some (.num q) => toString q
  | some (.asset s) => s

/-- The Asset Resolver `imagePath`: webpack's dynamic `require` against the
bundled files of one asset directory (`assets`).  A filename not present in
the directory makes `require` throw (module not found). -/
def resolveAsset (assets : List String) (v : Option JVal) : Except String JVal :=
  let s := jsToString v
  if s ∈ assets then .ok (.asset s) else .error ("Cannot find module " ++ s)

/-- Education/Experience/Certificates loader enrichment
(`Education.js`: `data.map((item) => ({ ...item, logo: imagePath(item.logo) }))`):
unconditionally rewrites `logo`; a throw aborts the whole `map`. -/
def enrichLogo (assets : List String) (r : ContentRecord) : Except String ContentRecord :=
  match resolveAsset assets r.logo with
  | .error e => .error e
  | .ok a => .ok { r with logo := some a }

/-- Skills loader enrichment (`Education.js`:
`data.map((item) => ({ ...item }))`): a plain copy, no asset field. -/
def enrichSkills (r : ContentRecord) : Except String ContentRecord :=
  .ok r

/-- Projects loader enrichment (`List.js`:
`data.map((item) => ({ ...item, icon: imagePath(item.icon) }))`). -/
def enrichIcon (assets : List String) (r : ContentRecord) : Except String ContentRecord :=
  match resolveAsset assets r.icon with
  | .error e => .error e
  | .ok a => .ok { r with icon := some a }

/-- Locations loader enrichment (`MyMap.js`:
`data.map((item) => ({ ...item, position: {lat: item.lat, lng: item.lng}, image: imagePath(item.image) }))`). -/
def enrichLocation (assets : List String) (r : ContentRecord) : Except String ContentRecord :=
  match resolveAsset assets r.image with
  | .error e => .error e
  | .ok a => .ok { r with position := some (r.lat, r.lng), image := some a }

/-- Outcome of one `fetch` of a data file: a network error (rejected
promise), or a response with its `ok` flag and parsed body — `none` when
`response.json()` fails on a malformed body. -/
inductive FetchOutcome where
  | netError : FetchOutcome
  | resp : Bool → Option JContent → FetchOutcome
deriving DecidableEq

/-- JS `Array.prototype.map` with a callback that may throw: elements are
processed left to right and the first throw aborts the whole map. -/
def mapEnrich (f : ContentRecord → Except String ContentRecord) :
    List ContentRecord → Except String (List ContentRecord)
  | [] => .ok []
  | r :: rs =>
    match f r with
    | .error e => .error e
    | .ok b =>
      match mapEnrich f rs with
      | .error e => .error e
      | .ok bs => .ok (b :: bs)

/-- One Content Loader run (the repeated fetch/then/then/catch block of
`Education.js`, `List.js`, `MyMap.js`): on a network error, a non-ok
status (`throw new Error`), a malformed body, a non-array body
(`data.map` throws), or an enrichment throw, the `.catch` logs
`"Error loading data:"` and the store keeps its previous value; on success
the store is replaced by the enriched records. -/
def loadCollection (enrich : ContentRecord → Except String ContentRecord)
    (o : FetchOutcome) (prev : List ContentRecord) :
    List ContentRecord × List String :=
  match o with
  | .netError => (prev, ["Error loading data:"])
  | .resp ok body =>
    if ok then
      match body with
      | some (.arr xs) =>
        match mapEnrich enrich xs with
        | .ok ys => (ys, [])
        | .error _ => (prev, ["Error loading data:"])
      | _ => (prev, ["Error loading data:"])
    else (prev, ["Error loading data:"])

/-- Whether a loader run fails (every branch that ends in the `.catch`). -/
def loadFails (enrich : ContentRecord → Except String ContentRecord) :
    FetchOutcome → Bool
  | .netError => true
  | .resp ok body =>
    if ok then
      match body with
      | some (.arr xs) =>
        match mapEnrich enrich xs with
        | .ok _ => false
        | .error _ => true
      | _ => true
    else true

/-- The four per-collection states of the `Education` component
(`useState([])` each). -/
structure HomeStore where
  education : List ContentRecord
  experience : List ContentRecord
  skills : List ContentRecord
  certificates : List ContentRecord
deriving DecidableEq

/-- The store as created on page mount: every collection empty. -/
def initialHomeStore : HomeStore := ⟨[], [], [], []⟩

/-- The `useEffect` of `Education.js` lines 86-153: four independent
loaders, one per data file, each updating only its own state from its own
fetch outcome. -/
def educationMount (assets : List String)
    (oEdu oExp oSki oCer : FetchOutcome) (s : HomeStore) : HomeStore :=
  { education := (loadCollection (enrichLogo assets) oEdu s.education).1
    experience := (loadCollection (enrichLogo assets) oExp s.experience).1
    skills := (loadCollection enrichSkills oSki s.skills).1
    certificates := (loadCollection (enrichLogo assets) oCer s.certificates).1 }

/-- The marker list rendered by `MyMap.js` lines 65-71:
`locations.map((location, index) => <Marker position={location.position} …/>)`. -/
def mapMarkers (locations : List ContentRecord) :
    List (Option (Option JVal × Option JVal)) :=
  locations.map (fun l => l.position)

/-! ## Kind analysis of rendered elements (for the Item Renderer contract) -/

/-- The seven element kinds a leaf renderer can emit. -/
inductive ElKind where
  | image | itemText | experienceText | linkChip | locationText
  | skillLabel | progressBar
deriving DecidableEq

/-- The kind of a rendered element. -/
def Element.kind : Element → ElKind
  | .image _ => .image
  | .itemText _ => .itemText
  | .experienceText _ => .experienceText
  | .linkChip _ => .linkChip
  | .locationText _ => .locationText
  | .skillLabel _ => .skillLabel
  | .progressBar _ => .progressBar

/-- The record field that drives an element kind in the Item Renderer
(`none` for the kinds the Item Renderer never emits). -/
def fieldOfKind (k : ElKind) (r : ContentRecord) : Option JVal :=
  match k with
  | .image => r.logo
  | .itemText => r.item
  | .experienceText => r.experience
  | .linkChip => r.link
  | .locationText => r.location
  | .skillLabel => none
  | .progressBar => none

/-- The element the Item Renderer emits for a kind and a field value. -/
def elemOfKind (k : ElKind) (v : JVal) : Element :=
  match k with
  | .image => .image v
  | .itemText => .itemText v
  | .experienceText => .experienceText v
  | .linkChip => .linkChip v
  | .locationText => .locationText v
  | .skillLabel => .skillLabel (some v)
  | .progressBar => .progressBar (some v)

/-! ## Concrete records used as test inputs and counterexamples -/

/-- A record whose `item` field is present but holds the empty string. -/
def recItemEmpty : ContentRecord := { emptyRecord with item := some (.str "") }

/-- A record whose `dates` field is present but holds the empty string. -/
def recDatesEmpty : ContentRecord := { emptyRecord with dates := some (.str "") }

/-- A record with a truthy dates field. -/
def recDatesFull : ContentRecord :=
  { emptyRecord with dates := some (.str "2019 - 2021"),
                     item := some (.str "MSc"),
                     logo := some (.asset "ugr.png") }

/-- A concrete logos asset directory. -/
def assetsLogos : List String := ["ugr.png", "google.png"]

/-- An education-style record with no `logo` field. -/
def recNoLogo : ContentRecord := { emptyRecord with title := some (.str "BSc") }

/-- The skills fixture record `{ "skill": "Go", "progress": 80 }`. -/
def recGo : ContentRecord :=
  { emptyRecord with skill := some (.str "Go"), progress := some (.num 80) }

/-- A concrete locations asset directory. -/
def assetsLocations : List String := ["granada.png"]

/-- The location fixture record with `lat: 36.95, lng: -3.55`. -/
def recGranada : ContentRecord :=
  { emptyRecord with city := some (.str "Granada"),
                     lat := some (.num 36.95),
                     lng := some (.num (-3.55)),
                     image := some (.str "granada.png") }

/-- The location fixture after load-time enrichment. -/
def recGranadaLoaded : ContentRecord :=
  { recGranada with position := some (some (.num 36.95), some (.num (-3.55))),
                    image := some (.asset "granada.png") }

/-- An education record with a resolvable logo. -/
def recUgr : ContentRecord :=
  { emptyRecord with title := some (.str "BSc"), logo := some (.str "ugr.png") }

/-- A successful fetch of an empty JSON array. -/
def okEmptyFetch : FetchOutcome := .resp true (some (.arr []))

/-! ## Helper lemmas -/

theorem condE_filter_of_kind (v : Option JVal) (mk : JVal → Element)
    (k : ElKind) (h : ∀ x, (mk x).kind = k) :
    (condE v mk).filter (fun e => e.kind == k) = condE v mk := by
  cases v with
  | none => rfl
  | some x =>
    simp only [condE]
    split
    · simp [List.filter, h x]
    · rfl

theorem condE_filter_of_kind_ne (v : Option JVal) (mk : JVal → Element)
    (k : ElKind) (h : ∀ x, (mk x).kind ≠ k) :
    (condE v mk).filter (fun e => e.kind == k) = [] := by
  cases v with
  | none => rfl
  | some x =>
    have hb : ((mk x).kind == k) = false := by
      simp [h x]
    simp only [condE]
    split
    · simp [List.filter, hb]
    · rfl

theorem timelineEntriesAux_map_itemBody (n : Nat) :
    ∀ (i : Nat) (xs : List ContentRecord),
      (timelineEntriesAux n i xs).map (fun e => e.itemBody) = xs.map renderItem := by
  intro i xs
  induction xs generalizing i with
  | nil => rfl
  | cons r rs ih => simp [timelineEntriesAux, mkEntry, ih]

theorem timelineEntriesAux_getElem (n : Nat) :
    ∀ (xs : List ContentRecord) (i j : Nat),
      (timelineEntriesAux n i xs)[j]? = (xs[j]?).map (mkEntry n (i + j)) := by
  intro xs
  induction xs with
  | nil => intro i j; rfl
  | cons r rs ih =>
    intro i j
    cases j with
    | zero => simp [timelineEntriesAux]
    | succ j =>
      simp only [timelineEntriesAux, List.getElem?_cons_succ, ih (i + 1) j]
      have h : i + 1 + j = i + (j + 1) := by omega
      rw [h]

theorem loadCollection_of_fails (enrich : ContentRecord → Except String ContentRecord)
    (o : FetchOutcome) (prev : List ContentRecord) (h : loadFails enrich o = true) :
    loadCollection enrich o prev = (prev, ["Error loading data:"]) := by
  cases o with
  | netError => rfl
  | resp ok body =>
    cases ok with
    | false => rfl
    | true =>
      cases body with
      | none => rfl
      | some c =>
        cases c with
        | nonArr => rfl
        | arr xs =>
          simp only [loadFails, if_true] at h
          simp only [loadCollection, if_true]
          cases hm : mapEnrich enrich xs with
          | ok ys => rw [hm] at h; simp at h
          | error e => rfl

theorem mapEnrich_getElem (f : ContentRecord → Except String ContentRecord) :
    ∀ (xs ys : List ContentRecord), mapEnrich f xs = Except.ok ys →
      ∀ (i : Nat) (r : ContentRecord), xs[i]? = some r →
        ∃ e, f r = Except.ok e ∧ ys[i]? = some e := by
  intro xs
  induction xs with
  | nil =>
    intro ys _ i r hr
    simp at hr
  | cons a as ih =>
    intro ys hys i r hr
    simp only [mapEnrich] at hys
    cases hfa : f a with
    | error e => rw [hfa] at hys; exact absurd hys (by simp)
    | ok b =>
      rw [hfa] at hys
      cases hm : mapEnrich f as with
      | error e => rw [hm] at hys; exact absurd hys (by simp)
      | ok bs =>
        rw [hm] at hys
        cases hys with
        | refl =>
          cases i with
          | zero =>
            simp at hr
            subst hr
            exact ⟨b, hfa, by simp⟩
          | succ i =>
            simp only [List.getElem?_cons_succ] at hr ⊢
            exact ih bs hm i r hr

/-! ## Claim theorems -/

/-- C1: the Section Renderer selects the flat (progress-list) strategy iff the
section name is exactly the string "Skills" (case-sensitive, exact equality);
every other name, including case variants, selects the chronological
(timeline) strategy. -/
theorem section_flat_iff_skills (s : String) (c : JContent) :
    (renderSection s c).body.isFlat = true ↔ s = "Skills" := by
  by_cases h : s = "Skills"
  · subst h
    simp [renderSection, SectionBody.isFlat]
  · simp [renderSection, SectionBody.isFlat, h]

/-- C4 (counterexample): the claim "a field present on r yields its visual
element" fails for a present-but-empty `item` field: the record
`{ item: "" }` carries the field, yet the Item Renderer emits no element at
all (JS truthiness: `props.item && <p>…` is falsy on the empty string). -/
theorem item_renderer_claim_counterexample :
    renderItem recItemEmpty = [] ∧ recItemEmpty.item.isSome = true := by
  constructor
  · rfl
  · rfl

/-- C4 (amended): the Item Renderer output contains, for each element kind,
exactly the element carrying the corresponding field's value when that field
is present with a truthy (non-empty, non-zero) value, and nothing for a field
that is absent or present with a falsy value; kinds outside the recognized
set never appear. -/
theorem item_renderer_truthy_fields (r : ContentRecord) (k : ElKind) :
    (renderItem r).filter (fun e => e.kind == k) =
      condE (fieldOfKind k r) (elemOfKind k) := by
  cases k <;>
    simp only [renderItem, List.filter_append] <;>
    rw [show ∀ u v w x y : List Element,
          u ++ v ++ w ++ x ++ y = u ++ (v ++ (w ++ (x ++ y))) by
        intro u v w x y
        simp [List.append_assoc]]
  case image =>
    rw [condE_filter_of_kind r.logo Element.image ElKind.image (fun x => rfl),
        condE_filter_of_kind_ne r.item Element.itemText ElKind.image (fun x h => ElKind.noConfusion h),
        condE_filter_of_kind_ne r.experience Element.experienceText ElKind.image (fun x h => ElKind.noConfusion h),
        condE_filter_of_kind_ne r.link Element.linkChip ElKind.image (fun x h => ElKind.noConfusion h),
        condE_filter_of_kind_ne r.location Element.locationText ElKind.image (fun x h => ElKind.noConfusion h)]
    simp [fieldOfKind]
    rfl
  case itemText =>
    rw [condE_filter_of_kind_ne r.logo Element.image ElKind.itemText (fun x h => ElKind.noConfusion h),
        condE_filter_of_kind r.item Element.itemText ElKind.itemText (fun x => rfl),
        condE_filter_of_kind_ne r.experience Element.experienceText ElKind.itemText (fun x h => ElKind.noConfusion h),
        condE_filter_of_kind_ne r.link Element.linkChip ElKind.itemText (fun x h => ElKind.noConfusion h),
        condE_filter_of_kind_ne r.location Element.locationText ElKind.itemText (fun x h => ElKind.noConfusion h)]
    simp [fieldOfKind]
    rfl
  case experienceText =>
    rw [condE_filter_of_kind_ne r.logo Element.image ElKind.experienceText (fun x h => ElKind.noConfusion h),
        condE_filter_of_kind_ne r.item Element.itemText ElKind.experienceText (fun x h => ElKind.noConfusion h),
        condE_filter_of_kind r.experience Element.experienceText ElKind.experienceText (fun x => rfl),
        condE_filter_of_kind_ne r.link Element.linkChip ElKind.experienceText (fun x h => ElKind.noConfusion h),
        condE_filter_of_kind_ne r.location Element.locationText ElKind.experienceText (fun x h => ElKind.noConfusion h)]
    simp [fieldOfKind]
    rfl
  case linkChip =>
    rw [condE_filter_of_kind_ne r.logo Element.image ElKind.linkChip (fun x h => ElKind.noConfusion h),
        condE_filter_of_kind_ne r.item Element.itemText ElKind.linkChip (fun x h => ElKind.noConfusion h),
        condE_filter_of_kind_ne r.experience Element.experienceText ElKind.linkChip (fun x h => ElKind.noConfusion h),
        condE_filter_of_kind r.link Element.linkChip ElKind.linkChip (fun x => rfl),
        condE_filter_of_kind_ne r.location Element.locationText ElKind.linkChip (fun x h => ElKind.noConfusion h)]
    simp [fieldOfKind]
    rfl
  case locationText =>
    rw [condE_filter_of_kind_ne r.logo Element.image ElKind.locationText (fun x h => ElKind.noConfusion h),
        condE_filter_of_kind_ne r.item Element.itemText ElKind.locationText (fun x h => ElKind.noConfusion h),
        condE_filter_of_kind_ne r.experience Element.experienceText ElKind.locationText (fun x h => ElKind.noConfusion h),
        condE_filter_of_kind_ne r.link Element.linkChip ElKind.locationText (fun x h => ElKind.noConfusion h),
        condE_filter_of_kind r.location Element.locationText ElKind.locationText (fun x => rfl)]
    simp [fieldOfKind]
    rfl
  case skillLabel =>
    rw [condE_filter_of_kind_ne r.logo Element.image ElKind.skillLabel (fun x h => ElKind.noConfusion h),
        condE_filter_of_kind_ne r.item Element.itemText ElKind.skillLabel (fun x h => ElKind.noConfusion h),
        condE_filter_of_kind_ne r.experience Element.experienceText ElKind.skillLabel (fun x h => ElKind.noConfusion h),
        condE_filter_of_kind_ne r.link Element.linkChip ElKind.skillLabel (fun x h => ElKind.noConfusion h),
        condE_filter_of_kind_ne r.location Element.locationText ElKind.skillLabel (fun x h => ElKind.noConfusion h)]
    simp [fieldOfKind, condE]
  case progressBar =>
    rw [condE_filter_of_kind_ne r.logo Element.image ElKind.progressBar (fun x h => ElKind.noConfusion h),
        condE_filter_of_kind_ne r.item Element.itemText ElKind.progressBar (fun x h => ElKind.noConfusion h),
        condE_filter_of_kind_ne r.experience Element.experienceText ElKind.progressBar (fun x h => ElKind.noConfusion h),
        condE_filter_of_kind_ne r.link Element.linkChip ElKind.progressBar (fun x h => ElKind.noConfusion h),
        condE_filter_of_kind_ne r.location Element.locationText ElKind.progressBar (fun x h => ElKind.noConfusion h)]
    simp [fieldOfKind, condE]

/-- C5: chronological mode preserves source array order: the i-th rendered
timeline body is the Item rendering of the i-th source record, for every
collection and every content of the `dates` fields — no date parsing and no
sorting happens anywhere in the pipeline. -/
theorem chronological_preserves_order (xs : List ContentRecord) :
    ((renderTimedItem (.arr xs)).getD []).map (fun e => e.itemBody) =
      xs.map renderItem := by
  simp only [renderTimedItem, Option.getD_some, timelineEntries]
  exact timelineEntriesAux_map_itemBody xs.length 0 xs

/-- C6 (counterexample): the claim "the i-th entry contains a leading dates
label iff the i-th record carries a `dates` field" fails for a record whose
`dates` field holds the empty string: the field is carried, yet no label is
rendered (`item.dates && <TimelineOppositeContent>…` is falsy on ""). -/
theorem timeline_dates_claim_counterexample :
    (timelineEntries [recDatesEmpty]).map (fun e => e.datesLabel.isSome) = [false] ∧
      recDatesEmpty.dates.isSome = true := by
  constructor
  · rfl
  · rfl

/-- C6 (amended): in chronological mode the i-th timeline entry has a
connector mark iff i < n-1 (absent after the last item), and has a leading
dates label iff the i-th record's `dates` value is truthy (present and
non-empty); the slot is left empty otherwise. -/
theorem timeline_connector_dates (xs : List ContentRecord) (i : Nat)
    (r : ContentRecord) (e : TimelineEntry)
    (hr : xs[i]? = some r) (he : (timelineEntries xs)[i]? = some e) :
    (e.hasConnector = true ↔ i < xs.length - 1) ∧
      e.datesLabel.isSome = truthy r.dates := by
  rw [timelineEntries, timelineEntriesAux_getElem xs.length xs 0 i, hr] at he
  simp only [Option.map_some', Option.some.injEq, Nat.zero_add] at he
  subst he
  constructor
  · simp [mkEntry]
  · cases hd : r.dates with
    | none => simp [mkEntry, hd, truthy]
    | some v =>
      cases htv : truthyV v <;> simp [mkEntry, hd, truthy, htv]

/-- C7: for an empty-array or non-array content value, the Section Renderer
still renders the section-name label and renders zero item elements, in
either strategy. -/
theorem section_empty_or_nonarray (s : String) (c : JContent)
    (h : c = .nonArr ∨ c = .arr []) :
    (renderSection s c).label = s ∧
      (renderSection s c).body.itemCount = 0 := by
  rcases h with h | h <;> subst h <;> by_cases hs : s = "Skills" <;>
    simp [renderSection, renderTimedItem, renderNotTimedItem, timelineEntries,
          timelineEntriesAux, SectionBody.itemCount, hs]

/-- C10: the flat-strategy row renderer is unconditional: every record,
including one missing the `skill` field, the `progress` field or both,
yields a row holding both the label element (with the record's possibly
undefined skill text) and the progress-bar element (with the record's
possibly undefined fill value), and nothing else; in flat mode every record
of the collection yields its row. -/
theorem skill_row_unconditional (r : ContentRecord) :
    Element.skillLabel r.skill ∈ renderSkillItem r ∧
      Element.progressBar r.progress ∈ renderSkillItem r ∧
      (renderSkillItem r).length = 2 ∧
      renderNotTimedItem (.arr [r]) = some [renderSkillItem r] := by
  refine ⟨?_, ?_, rfl, rfl⟩
  · simp [renderSkillItem]
  · simp [renderSkillItem]

/-- C2: any Content Loader failure (network error, non-ok HTTP status,
malformed JSON body, non-array body, or unresolvable asset) is caught, the
error is logged, and the store keeps its previous value; and a failing
education load leaves the experience, skills and certificates collections
exactly as a succeeding one would (fault isolation across loaders). -/
theorem loader_failure_keeps_store (assets : List String)
    (o1 o2 o3 o4 : FetchOutcome) (s : HomeStore) (prev : List ContentRecord)
    (h : loadFails (enrichLogo assets) o1 = true) :
    (educationMount assets o1 o2 o3 o4 s).education = s.education ∧
      loadCollection (enrichLogo assets) o1 prev = (prev, ["Error loading data:"]) ∧
      (∀ o1b : FetchOutcome,
        (educationMount assets o1 o2 o3 o4 s).experience =
            (educationMount assets o1b o2 o3 o4 s).experience ∧
          (educationMount assets o1 o2 o3 o4 s).skills =
            (educationMount assets o1b o2 o3 o4 s).skills ∧
          (educationMount assets o1 o2 o3 o4 s).certificates =
            (educationMount assets o1b o2 o3 o4 s).certificates) := by
  refine ⟨?_, loadCollection_of_fails (enrichLogo assets) o1 prev h,
    fun o1b => ⟨rfl, rfl, rfl⟩⟩
  show (loadCollection (enrichLogo assets) o1 s.education).1 = s.education
  rw [loadCollection_of_fails (enrichLogo assets) o1 s.education h]

theorem loader_failure_keeps_store_witness :
    (educationMount [] .netError okEmptyFetch okEmptyFetch okEmptyFetch
        initialHomeStore).education = initialHomeStore.education ∧
      loadCollection (enrichLogo []) .netError [] = ([], ["Error loading data:"]) ∧
      (∀ o1b : FetchOutcome,
        (educationMount [] .netError okEmptyFetch okEmptyFetch okEmptyFetch
              initialHomeStore).experience =
            (educationMount [] o1b okEmptyFetch okEmptyFetch okEmptyFetch
              initialHomeStore).experience ∧
          (educationMount [] .netError okEmptyFetch okEmptyFetch okEmptyFetch
                initialHomeStore).skills =
            (educationMount [] o1b okEmptyFetch okEmptyFetch okEmptyFetch
              initialHomeStore).skills ∧
          (educationMount [] .netError okEmptyFetch okEmptyFetch okEmptyFetch
                initialHomeStore).certificates =
            (educationMount [] o1b okEmptyFetch okEmptyFetch okEmptyFetch
              initialHomeStore).certificates) :=
  loader_failure_keeps_store [] .netError okEmptyFetch okEmptyFetch okEmptyFetch
    initialHomeStore [] rfl

/-- C3 (counterexample): the claim "a record lacking the asset field is
passed through with no asset field added or resolved" fails: the education
loader applies `logo: imagePath(item.logo)` unconditionally, so a record
without `logo` makes `require` throw on the interpolated string
"undefined", and the whole collection load is voided (the store keeps its
previous value, here the empty list). -/
theorem asset_resolution_claim_counterexample :
    enrichLogo assetsLogos recNoLogo ≠ Except.ok recNoLogo ∧
      (loadCollection (enrichLogo assetsLogos)
          (.resp true (some (.arr [recNoLogo]))) []).1 = [] := by
  have hE : enrichLogo assetsLogos recNoLogo =
      .error ("Cannot find module " ++ "undefined") := rfl
  constructor
  · intro h
    rw [hE] at h
    exact Except.noConfusion h
  · rfl

/-- C3 (amended): each Content Loader rewrites its single fixed asset field
unconditionally at load time, exactly once per record: a present, resolvable
`logo` (education/experience/certificates) or `icon` (projects) is replaced
by the Asset Resolver's result with all other fields unchanged, and a whole
successful load performs exactly this per-record rewrite; a record lacking
the field makes the resolver fail on the interpolated string "undefined";
the skills loader resolves nothing.  Rendering never resolves: it reads the
stored field value verbatim. -/
theorem asset_resolution_unconditional (assets : List String)
    (r : ContentRecord) (s : String) (prev : List ContentRecord)
    (hlogo : r.logo = some (.str s)) (hs : s ∈ assets)
    (hu : "undefined" ∉ assets) :
    enrichLogo assets r = .ok { r with logo := some (.asset s) } ∧
      loadCollection (enrichLogo assets) (.resp true (some (.arr [r]))) prev =
        ([{ r with logo := some (.asset s) }], []) ∧
      enrichLogo assets { r with logo := none } =
        .error ("Cannot find module " ++ "undefined") ∧
      enrichIcon assets { r with icon := some (.str s) } =
        .ok { r with icon := some (.asset s) } ∧
      enrichSkills r = .ok r ∧
      condE ({ r with logo := some (.asset s) } : ContentRecord).logo Element.image =
        [Element.image (.asset s)] := by
  have h1 : resolveAsset assets (some (.str s)) = .ok (.asset s) := by
    simp [resolveAsset, jsToString, hs]
  have e1 : enrichLogo assets r = .ok { r with logo := some (.asset s) } := by
    rw [enrichLogo, hlogo, h1]
  refine ⟨e1, ?_, ?_, ?_, rfl, rfl⟩
  · rw [loadCollection]
    simp only [if_true]
    rw [mapEnrich, e1, mapEnrich]
  · rw [enrichLogo]
    simp only
    rw [show resolveAsset assets none = .error ("Cannot find module " ++ "undefined") by
      simp [resolveAsset, jsToString, hu]]
  · rw [enrichIcon]
    simp only
    rw [h1]

theorem asset_resolution_unconditional_witness :
    enrichLogo assetsLogos recUgr = .ok { recUgr with logo := some (.asset "ugr.png") } ∧
      loadCollection (enrichLogo assetsLogos)
          (.resp true (some (.arr [recUgr]))) [] =
        ([{ recUgr with logo := some (.asset "ugr.png") }], []) ∧
      enrichLogo assetsLogos { recUgr with logo := none } =
        .error ("Cannot find module " ++ "undefined") ∧
      enrichIcon assetsLogos { recUgr with icon := some (.str "ugr.png") } =
        .ok { recUgr with icon := some (.asset "ugr.png") } ∧
      enrichSkills recUgr = .ok recUgr ∧
      condE ({ recUgr with logo := some (.asset "ugr.png") } : ContentRecord).logo
          Element.image = [Element.image (.asset "ugr.png")] :=
  asset_resolution_unconditional assetsLogos recUgr "ugr.png" [] rfl
    (by decide) (by decide)

theorem timeline_connector_dates_witness :
    ((mkEntry 2 0 recDatesFull).hasConnector = true ↔
        0 < [recDatesFull, emptyRecord].length - 1) ∧
      (mkEntry 2 0 recDatesFull).datesLabel.isSome = truthy recDatesFull.dates :=
  timeline_connector_dates [recDatesFull, emptyRecord] 0 recDatesFull
    (mkEntry 2 0 recDatesFull) rfl rfl

theorem section_empty_or_nonarray_witness :
    (renderSection "Education" .nonArr).label = "Education" ∧
      (renderSection "Education" .nonArr).body.itemCount = 0 :=
  section_empty_or_nonarray "Education" .nonArr (Or.inl rfl)

/-- C8: the flat strategy passes the skill text and the progress value
through to the rendered label and progress-bar fill unmodified — no
validation, clamping or transformation, whatever the values are; and the
round trip of the fixture `[{ "skill": "Go", "progress": 80 }]` through the
skills loader and the Section Renderer yields one row with label "Go" and
fill value 80. -/
theorem flat_passthrough (xs : List ContentRecord) (i : Nat) (r : ContentRecord)
    (hr : xs[i]? = some r) :
    ((renderNotTimedItem (.arr xs)).getD [])[i]? =
        some [Element.skillLabel r.skill, Element.progressBar r.progress] ∧
      (renderSection "Skills"
          (.arr (loadCollection enrichSkills
            (.resp true (some (.arr [recGo]))) []).1)).body =
        .flat (some [[Element.skillLabel (some (.str "Go")),
                      Element.progressBar (some (.num 80))]]) := by
  constructor
  · simp [renderNotTimedItem, List.getElem?_map, hr, renderSkillItem]
  · rfl

theorem flat_passthrough_witness :
    ((renderNotTimedItem (.arr [recGo])).getD [])[0]? =
        some [Element.skillLabel recGo.skill, Element.progressBar recGo.progress] ∧
      (renderSection "Skills"
          (.arr (loadCollection enrichSkills
            (.resp true (some (.arr [recGo]))) []).1)).body =
        .flat (some [[Element.skillLabel (some (.str "Go")),
                      Element.progressBar (some (.num 80))]]) :=
  flat_passthrough [recGo] 0 recGo rfl

/-- C9: for every location record with numeric `lat` and `lng` fields in a
successfully loaded locations collection, the corresponding map marker's
position is exactly the `(lat, lng)` pair taken from the record — no
rounding, snapping or other transformation anywhere in the pipeline. -/
theorem map_marker_exact (assets : List String) (xs ys : List ContentRecord)
    (i : Nat) (r : ContentRecord) (a b : Rat)
    (hm : mapEnrich (enrichLocation assets) xs = Except.ok ys)
    (hr : xs[i]? = some r)
    (hlat : r.lat = some (.num a)) (hlng : r.lng = some (.num b)) :
    (mapMarkers ys)[i]? = some (some (some (.num a), some (.num b))) := by
  obtain ⟨e, he, hy⟩ := mapEnrich_getElem (enrichLocation assets) xs ys hm i r hr
  rw [enrichLocation] at he
  cases hra : resolveAsset assets r.image with
  | error m =>
    rw [hra] at he
    exact absurd he (by simp)
  | ok av =>
    rw [hra] at he
    simp only [Except.ok.injEq] at he
    subst he
    simp [mapMarkers, List.getElem?_map, hy, hlat, hlng]

theorem map_marker_exact_witness :
    (mapMarkers [recGranadaLoaded])[0]? =
      some (some (some (.num 36.95), some (.num (-3.55)))) :=
  map_marker_exact assetsLocations [recGranada] [recGranadaLoaded] 0 recGranada
    36.95 (-3.55) rfl rfl rfl rfl
